import Mathlib

/-!
Verification of the guardian static-pattern scanner
(`internal/checks/runner.go`).

Strings are modelled as lists of characters (runes).  Each Go regular
expression from the source is embedded as an executable Boolean matcher
with the same semantics on the inputs the scanner feeds it; the per-line
classifier, the file scanner, the directory walkers and the external
output parser are translated function by function.
-/

namespace Guardian

/-- Character strings, modelled as lists of runes. -/
abbrev Str := List Char

/-- Whitespace class of the Go regexp engine (RE2): tab, newline,
form feed, carriage return, space. -/
def isRE2Space (c : Char) : Bool :=
  c = '\t' || c = '\n' || c = '\x0c' || c = '\r' || c = ' '

/-- Unicode white space, as trimmed by Go strings.TrimSpace. -/
def isGoSpace (c : Char) : Bool :=
  c.toNat ∈ [9, 10, 11, 12, 13, 32, 0x85, 0xA0, 0x1680,
    0x2000, 0x2001, 0x2002, 0x2003, 0x2004, 0x2005, 0x2006, 0x2007,
    0x2008, 0x2009, 0x200A, 0x2028, 0x2029, 0x202F, 0x205F, 0x3000]

/-- Word characters of the regexp classes backslash-w and backslash-b. -/
def isWordChar (c : Char) : Bool :=
  ('a' ≤ c && c ≤ 'z') || ('A' ≤ c && c ≤ 'Z') || ('0' ≤ c && c ≤ '9') || c = '_'

/-- Go strings.TrimSpace. -/
def trimSpace (s : Str) : Str :=
  ((s.dropWhile isGoSpace).reverse.dropWhile isGoSpace).reverse

/-- Go strings.ToLower, on the ASCII range used by every rule pattern. -/
def toLowerStr (s : Str) : Str := s.map Char.toLower

/-- Go strings.ToUpper, on the ASCII range used by every rule pattern. -/
def toUpperStr (s : Str) : Str := s.map Char.toUpper

/-- True when `f` holds of some suffix of the string (used to scan every
match start position). -/
def existsSuffix (f : Str → Bool) : Str → Bool
  | [] => f []
  | c :: rest => f (c :: rest) || existsSuffix f rest

/-- Go strings.Contains. -/
def containsSub (needle hay : Str) : Bool :=
  existsSuffix (fun s => needle.isPrefixOf s) hay

/-- Go strings.Split(s, sep)[0]: the prefix of `s` before the first
occurrence of the (non-empty) separator, or all of `s`. -/
def beforeFirst (sep : Str) : Str → Str
  | [] => []
  | c :: rest =>
    if sep.isPrefixOf (c :: rest) then [] else c :: beforeFirst sep rest

/-- Go strings.ReplaceAll(s, pat, stripped) for the two-character
escaped-quote patterns of the source (a backslash followed by the quote
character `q`): removes every leftmost, non-overlapping occurrence. -/
def removeEsc (q : Char) : Str → Str
  | [] => []
  | [c] => [c]
  | c1 :: c2 :: rest =>
    if c1 = '\\' && c2 = q then removeEsc q rest
    else c1 :: removeEsc q (c2 :: rest)

/-- Go strings.Split(s, newline): splits into lines, keeping a trailing
empty element when the string ends with a newline. -/
def splitOnNL : Str → List Str
  | [] => [[]]
  | c :: rest =>
    if c = '\n' then [] :: splitOnNL rest
    else
      match splitOnNL rest with
      | [] => [[c]]
      | l :: ls => (c :: l) :: ls

/-- A matcher for `lit` followed by the continuation matcher `k`. -/
def litThen (lit : Str) (k : Str → Bool) (s : Str) : Bool :=
  lit.isPrefixOf s && k (s.drop lit.length)

/-- Matcher tail for a regexp fragment: zero or more RE2 spaces then a
left parenthesis. -/
def spacesLParen : Str → Bool
  | [] => false
  | c :: rest => if c = '(' then true else if isRE2Space c then spacesLParen rest else false

/-- Matcher tail for a regexp fragment: zero or more RE2 spaces then a
colon. -/
def spacesColon : Str → Bool
  | [] => false
  | c :: rest => if c = ':' then true else if isRE2Space c then spacesColon rest else false

/-- Operator / delimiter / whitespace class required before eval or exec
by the source regexps (the characters equals, lparen, colon, comma and
RE2 whitespace). -/
def isOpClass (c : Char) : Bool :=
  c = '=' || c = '(' || c = ':' || c = ',' || isRE2Space c

/-- The fragment matching the word eval followed by optional spaces and
a left parenthesis, at the start of the string. -/
def evalHere : Str → Bool := litThen "eval".data spacesLParen

/-- The fragment matching the word exec followed by optional spaces and
a left parenthesis, at the start of the string. -/
def execHere : Str → Bool := litThen "exec".data spacesLParen

/-- Scanner for the eval/exec call regexps: the carried flag says whether
the current position is the line start or preceded by an operator-class
character. -/
def opScan (here : Str → Bool) : Bool → Str → Bool
  | _, [] => false
  | ok, c :: rest => (ok && here (c :: rest)) || opScan here (isOpClass c) rest

/-- Go regexp evalRe. -/
def evalMatch (s : Str) : Bool := opScan evalHere true s

/-- Go regexp execRe. -/
def execMatch (s : Str) : Bool := opScan execHere true s

/-- Scanner for the print regexp: the carried flag says whether the
current position is the line start or preceded by a non-word character,
i.e. whether a word boundary sits before the match. -/
def wordScan (here : Str → Bool) : Bool → Str → Bool
  | _, [] => false
  | ok, c :: rest => (ok && here (c :: rest)) || wordScan here (!isWordChar c) rest

/-- Go regexp printRe. -/
def printMatch (s : Str) : Bool := wordScan (litThen "print".data spacesLParen) true s

/-- Go regexp bareExceptRe. -/
def bareExceptMatch (s : Str) : Bool :=
  existsSuffix (litThen "except".data spacesColon) s

/-- One regexp-sequencing step: a literal. -/
def dropLit (lit : Str) (s : Str) : Option Str :=
  if lit.isPrefixOf s then some (s.drop lit.length) else none

/-- Case-insensitive prefix test (the pattern is given in lower case). -/
def icPrefixB (pat : Str) (s : Str) : Bool :=
  match pat, s with
  | [], _ => true
  | _ :: _, [] => false
  | p :: ps, c :: cs => (Char.toLower c = p) && icPrefixB ps cs

/-- One regexp-sequencing step: a case-insensitive literal. -/
def dropICLit (lit : Str) (s : Str) : Option Str :=
  if icPrefixB lit s then some (s.drop lit.length) else none

/-- One regexp-sequencing step: one or more RE2 spaces (maximal). -/
def dropSpaces1 : Str → Option Str
  | [] => none
  | c :: rest =>
    if isRE2Space c then some (rest.dropWhile isRE2Space) else none

/-- One regexp-sequencing step: zero or more RE2 spaces (maximal). -/
def dropSpaces0 (s : Str) : Option Str :=
  some (s.dropWhile isRE2Space)

/-- One regexp-sequencing step: one or more non-space characters
(maximal). -/
def dropNonSpaces1 : Str → Option Str
  | [] => none
  | c :: rest =>
    if isRE2Space c then none else some (rest.dropWhile (fun x => !isRE2Space x))

/-- One regexp-sequencing step: one or more word characters (maximal). -/
def dropWord1 : Str → Option Str
  | [] => none
  | c :: rest =>
    if isWordChar c then some (rest.dropWhile isWordChar) else none

/-- Go regexp starImportRe, match attempt at the current position. -/
def starImportHere (s : Str) : Bool :=
  ((((((dropLit "from".data s).bind dropSpaces1).bind dropNonSpaces1).bind
    dropSpaces1).bind (dropLit "import".data)).bind dropSpaces1).bind
    (dropLit "*".data) |>.isSome

/-- Go regexp starImportRe. -/
def starImportMatch (s : Str) : Bool := existsSuffix starImportHere s

/-- Go regexp sqlInjectionRe, match attempt at the current position. -/
def sqlHere : Str → Bool
  | c1 :: c2 :: rest =>
    (Char.toLower c1 = 'f') && (c2 = '"' || c2 = '\'') &&
      (icPrefixB "select".data rest || icPrefixB "insert".data rest ||
       icPrefixB "update".data rest || icPrefixB "delete".data rest)
  | _ => false

/-- Go regexp sqlInjectionRe. -/
def sqlMatch (s : Str) : Bool := existsSuffix sqlHere s

/-- Tail of the mock regexp your-underscore dot-star underscore-here:
any run of non-newline characters followed by the closing literal. -/
def nlFreeThen (lit : Str) : Str → Bool
  | [] => lit.isPrefixOf []
  | c :: rest => lit.isPrefixOf (c :: rest) || (c ≠ '\n' && nlFreeThen lit rest)

/-- Mock regexp your-underscore dot-star underscore-here, match attempt
at the current position. -/
def yourHere (s : Str) : Bool :=
  "your_".data.isPrefixOf s && nlFreeThen "_here".data (s.drop 5)

/-- The mockPatternRegexes list, folded into one matcher over the
lower-cased line: true when any of the thirteen patterns matches. -/
def mockAny (s : Str) : Bool :=
  containsSub "test@example.com".data s || containsSub "example@".data s ||
  containsSub "@test.com".data s || containsSub "fake_".data s ||
  containsSub "_fake".data s || containsSub "mock_".data s ||
  containsSub "_mock".data s || containsSub "dummy_".data s ||
  containsSub "placeholder".data s || containsSub "test_user".data s ||
  containsSub "test_password".data s || containsSub "changeme".data s ||
  existsSuffix yourHere s

/-- Dangerous pattern rm dash-rf, match attempt at the current position. -/
def rmRfHere (s : Str) : Bool :=
  ((dropICLit "rm".data s).bind dropSpaces1).bind (dropICLit "-rf".data) |>.isSome

/-- Dangerous pattern DROP TABLE, match attempt at the current position. -/
def dropTableHere (s : Str) : Bool :=
  ((dropICLit "drop".data s).bind dropSpaces1).bind (dropICLit "table".data) |>.isSome

/-- Dangerous pattern DROP DATABASE, match attempt at the current position. -/
def dropDatabaseHere (s : Str) : Bool :=
  ((dropICLit "drop".data s).bind dropSpaces1).bind (dropICLit "database".data) |>.isSome

/-- Dangerous pattern DELETE FROM word semicolon, match attempt at the
current position. -/
def deleteFromHere (s : Str) : Bool :=
  ((((((dropICLit "delete".data s).bind dropSpaces1).bind
    (dropICLit "from".data)).bind dropSpaces1).bind dropWord1).bind
    dropSpaces0).bind (dropLit ";".data) |>.isSome

/-- Dangerous pattern TRUNCATE TABLE, match attempt at the current position. -/
def truncateHere (s : Str) : Bool :=
  ((dropICLit "truncate".data s).bind dropSpaces1).bind (dropICLit "table".data) |>.isSome

/-- The dangerousPatternRegexes list, folded into one matcher. -/
def dangerousAny (s : Str) : Bool :=
  existsSuffix rmRfHere s || existsSuffix dropTableHere s ||
  existsSuffix dropDatabaseHere s || existsSuffix deleteFromHere s ||
  existsSuffix truncateHere s

/-- One regexp-sequencing step: a single quote character, double or single. -/
def dropQuoteCh : Str → Option Str
  | [] => none
  | c :: rest => if c = '"' || c = '\'' then some rest else none

/-- One regexp-sequencing step: one or more non-quote characters (maximal). -/
def dropNonQuote1 : Str → Option Str
  | [] => none
  | c :: rest =>
    if c = '"' || c = '\'' then none
    else some (rest.dropWhile (fun x => !(x = '"' || x = '\'')))

/-- Secret assignment pattern (name, optional spaces, equals, optional
spaces, quoted non-empty literal), match attempt at the current position. -/
def secretAssignHere (name : Str) (s : Str) : Bool :=
  ((((((dropICLit name s).bind dropSpaces0).bind (dropLit "=".data)).bind
    dropSpaces0).bind dropQuoteCh).bind dropNonQuote1).bind dropQuoteCh |>.isSome

/-- Case-insensitive strings.Contains, for the plain secret markers. -/
def icContains (pat : Str) (hay : Str) : Bool :=
  existsSuffix (fun s => icPrefixB pat s) hay

/-- The secretPatternRegexes list, folded into one matcher. -/
def secretAny (s : Str) : Bool :=
  existsSuffix (secretAssignHere "api_key".data) s ||
  existsSuffix (secretAssignHere "password".data) s ||
  existsSuffix (secretAssignHere "secret".data) s ||
  icContains "aws_secret".data s || icContains "private_key".data s

/-- A single reported code issue (the Issue struct of the source). -/
structure Issue where
  File : Str
  Line : Nat
  Rule : Str
  Message : Str
  Severity : Str
deriving Repr, DecidableEq

/-- The shared directory exclusion set (excludedDirs in the source). -/
def excludedDirs (name : Str) : Bool :=
  name = ".git".data || name = "node_modules".data || name = "__pycache__".data ||
  name = ".venv".data || name = "venv".data || name = ".guardian".data

/-- getSeverity: the fixed rule-id to severity tier mapping. -/
def getSeverity (rule : Str) : Str :=
  if rule = "ban-eval".data || rule = "dangerous-cmd".data ||
     rule = "secret-pattern".data || rule = "sql-injection".data then
    "critical".data
  else if rule = "ban-print".data || rule = "ban-console".data ||
     rule = "todo-marker".data then
    "info".data
  else
    "warning".data

/-- Emit a single issue when the condition holds (one guarded append of
the source translated to a list). -/
def emitIf (b : Bool) (i : Issue) : List Issue := if b then [i] else []

/-- The quote cleaning step of the eval/exec suppression: remove the
escaped double-quote and then the escaped single-quote sequences. -/
def cleanQuotes (s : Str) : Str :=
  removeEsc '\'' (removeEsc '"' s)

/-- The quote parity test of the eval/exec suppression: both the double
and the single quote counts of the cleaned prefix are even. -/
def evenQuotes (s : Str) : Bool :=
  s.count '"' % 2 = 0 && s.count '\'' % 2 = 0

/-- The per-line rule checks of checkFile, for a line that survives the
empty-line and docstring skipping (the body of the line loop from the
comment-detection step onward). -/
def ruleChecks (relPath : Str) (lineNum : Nat) (line trimmed : Str) : List Issue :=
  let isComment := "#".data.isPrefixOf trimmed || "//".data.isPrefixOf trimmed
  let lowerLine := toLowerStr line
  let upperLine := toUpperStr line
  emitIf (mockAny lowerLine)
    ⟨relPath, lineNum, "mock-data".data, "Possible test/mock data detected".data, "warning".data⟩
  ++ emitIf (!isComment && printMatch line)
    ⟨relPath, lineNum, "ban-print".data, "Remove print() - use logging instead".data, "info".data⟩
  ++ emitIf (!isComment && containsSub "console.log(".data line)
    ⟨relPath, lineNum, "ban-console".data, "Remove console.log() - use proper logging".data, "info".data⟩
  ++ emitIf (!isComment && bareExceptMatch line)
    ⟨relPath, lineNum, "ban-except".data, "Avoid bare except: - catch specific exceptions".data, "warning".data⟩
  ++ emitIf (!isComment && evalMatch trimmed &&
      evenQuotes (cleanQuotes (beforeFirst "eval".data line)))
    ⟨relPath, lineNum, "ban-eval".data, "Avoid eval() - security risk".data, "critical".data⟩
  ++ emitIf (!isComment && execMatch trimmed &&
      evenQuotes (cleanQuotes (beforeFirst "exec".data line)))
    ⟨relPath, lineNum, "ban-eval".data, "Avoid exec() - security risk".data, "critical".data⟩
  ++ emitIf (!isComment && starImportMatch line)
    ⟨relPath, lineNum, "ban-star".data, "Avoid wildcard imports - import specific names".data, "warning".data⟩
  ++ emitIf (containsSub "TODO".data upperLine || containsSub "FIXME".data upperLine ||
      containsSub "HACK".data upperLine)
    ⟨relPath, lineNum, "todo-marker".data, "Resolve TODO/FIXME before committing".data, "info".data⟩
  ++ emitIf (!isComment && dangerousAny line)
    ⟨relPath, lineNum, "dangerous-cmd".data, "Dangerous command detected - review carefully".data, "critical".data⟩
  ++ emitIf (!isComment && secretAny line)
    ⟨relPath, lineNum, "secret-pattern".data, "Possible hardcoded secret - use environment variables".data, "critical".data⟩
  ++ emitIf (!isComment && sqlMatch line)
    ⟨relPath, lineNum, "sql-injection".data, "f-string in SQL query - use parameterized queries".data, "critical".data⟩
  ++ emitIf (!isComment && containsSub "shell=True".data line)
    ⟨relPath, lineNum, "subprocess-shell".data, "Avoid shell=True in subprocess - security risk".data, "warning".data⟩

/-- The multi-line docstring tracking state of checkFile. -/
structure DocState where
  inDocstring : Bool
  delim : Str
deriving Repr, DecidableEq

/-- One iteration of the line loop of checkFile: the empty-line skip,
the docstring open/close tracking and, for classified lines, the rule
checks.  Returns the issues of this line and the updated state. -/
def processLine (relPath : Str) (lineNum : Nat) (st : DocState) (line : Str) :
    List Issue × DocState :=
  let trimmed := trimSpace line
  if trimmed = [] then ([], st)
  else if st.inDocstring then
    if containsSub st.delim trimmed then ([], ⟨false, st.delim⟩) else ([], st)
  else if ['"', '"', '"'].isPrefixOf trimmed || ['\'', '\'', '\''].isPrefixOf trimmed then
    let delim := trimmed.take 3
    let rest := trimmed.drop 3
    if containsSub delim rest then ([], ⟨false, delim⟩) else ([], ⟨true, delim⟩)
  else
    (ruleChecks relPath lineNum line trimmed, st)

/-- The line loop of checkFile over the whole split file. -/
def processLines (relPath : Str) : Nat → DocState → List Str → List Issue
  | _, _, [] => []
  | n, st, l :: rest =>
    let r := processLine relPath n st l
    r.1 ++ processLines relPath (n + 1) r.2 rest

/-- The line counting of checkFile: length of the newline split, minus
the phantom empty element a trailing newline produces. -/
def lineCountOf (content : Str) : Nat :=
  let lines := splitOnNL content
  if lines.length > 0 ∧ lines.getLast? = some [] then lines.length - 1
  else lines.length

/-- checkFile: the builtin checks on a single file, given its path and
its content (the file read is modelled by passing the content). -/
def checkFile (path : Str) (content : Str) : List Issue :=
  let lines := splitOnNL content
  let lineCount := lineCountOf content
  let sizeIssues :=
    emitIf (lineCount > 500)
      ⟨path, 1, "file-size".data,
        "File has ".data ++ Nat.toDigits 10 lineCount ++ " lines (max 500)".data,
        "warning".data⟩
  sizeIssues ++ processLines path 1 ⟨false, []⟩ lines

/-- A file system subtree: the input of filepath.Walk. -/
inductive FSEntry where
  | file (name : Str) (content : Str)
  | dir  (name : Str) (children : List FSEntry)

/-- filepath.Join of a parent path and a base name. -/
def joinP (pfx name : Str) : Str :=
  if pfx = [] then name else pfx ++ '/' :: name

/-- filepath.Ext: the suffix starting at the final dot of the final
path element, empty when there is none. -/
def fileExt (path : Str) : Str :=
  let rev := path.reverse
  let seg := rev.takeWhile (fun c => !(c = '.' || c = '/'))
  match rev.drop seg.length with
  | '.' :: _ => '.' :: seg.reverse
  | _ => []

/-- The extension filter of the walkers: only Python and JS/TS files. -/
def extSupported (path : Str) : Bool :=
  fileExt path = ".py".data || fileExt path = ".js".data ||
  fileExt path = ".ts".data || fileExt path = ".tsx".data

mutual
/-- The walk step of runBuiltinChecks on one entry, `pfx` being the
path of the containing directory. -/
def walkEntry (pfx : Str) : FSEntry → List Issue
  | .file name content =>
    if extSupported (joinP pfx name) then checkFile (joinP pfx name) content else []
  | .dir name children =>
    if excludedDirs name then [] else walkList (joinP pfx name) children
/-- The walk of runBuiltinChecks over a directory listing. -/
def walkList (pfx : Str) : List FSEntry → List Issue
  | [] => []
  | e :: es => walkEntry pfx e ++ walkList pfx es
end

/-- runBuiltinChecks: walks the root entry and collects the issues of
every checked file (the root path is its base name). -/
def runBuiltinChecks (root : FSEntry) : List Issue := walkEntry [] root

/-- The line counting of DryRun, the duplicated snippet at its call
site: length of the newline split minus the phantom empty element. -/
def dryLineCountOf (content : Str) : Nat :=
  let lines := splitOnNL content
  if lines.length > 0 ∧ lines.getLast? = some [] then lines.length - 1
  else lines.length

/-- Per-file summary record of the dry run. -/
structure FileInfo where
  Path : Str
  Lines : Nat
deriving Repr, DecidableEq

/-- Accumulated dry run data before deduplication: files, excluded
names, file count, total lines. -/
structure DryAcc where
  Files : List FileInfo
  Excluded : List Str
  FileCount : Nat
  TotalLines : Nat
deriving Repr, DecidableEq

/-- Concatenation of dry run accumulators, in walk order. -/
def DryAcc.append (a b : DryAcc) : DryAcc :=
  ⟨a.Files ++ b.Files, a.Excluded ++ b.Excluded,
   a.FileCount + b.FileCount, a.TotalLines + b.TotalLines⟩

mutual
/-- The walk step of DryRun on one entry, `rel` being the path of the
containing directory relative to the walk root. -/
def dryWalkEntry (rel : Str) : FSEntry → DryAcc
  | .file name content =>
    if extSupported (joinP rel name) then
      ⟨[⟨joinP rel name, dryLineCountOf content⟩], [], 1, dryLineCountOf content⟩
    else ⟨[], [], 0, 0⟩
  | .dir name children =>
    if excludedDirs name then ⟨[], [name ++ ['/']], 0, 0⟩
    else dryWalkList (joinP rel name) children
/-- The walk of DryRun over a directory listing. -/
def dryWalkList (rel : Str) : List FSEntry → DryAcc
  | [] => ⟨[], [], 0, 0⟩
  | e :: es => (dryWalkEntry rel e).append (dryWalkList rel es)
end

/-- Removal of duplicate exclusion names with a seen set, keeping first
occurrences (the dedup loop at the end of DryRun). -/
def dedupFirstAux (seen : List Str) : List Str → List Str
  | [] => []
  | x :: xs =>
    if x ∈ seen then dedupFirstAux seen xs
    else x :: dedupFirstAux (x :: seen) xs

/-- Removal of duplicate exclusion names, keeping first occurrences. -/
def dedupFirst (l : List Str) : List Str := dedupFirstAux [] l

/-- The final dry run summary (DryRunInfo in the source). -/
structure DryRunInfo where
  Files : List FileInfo
  Excluded : List Str
  FileCount : Nat
  TotalLines : Nat
deriving Repr, DecidableEq

/-- DryRun on a root directory entry: file paths are reported relative
to the root, and the excluded name list is deduplicated at the end. -/
def dryRun : FSEntry → DryRunInfo
  | .file name content =>
    if extSupported name then
      ⟨[⟨['.'], dryLineCountOf content⟩], [], 1, dryLineCountOf content⟩
    else ⟨[], [], 0, 0⟩
  | .dir name children =>
    if excludedDirs name then ⟨[], dedupFirst [name ++ ['/']], 0, 0⟩
    else
      let acc := dryWalkList [] children
      ⟨acc.Files, dedupFirst acc.Excluded, acc.FileCount, acc.TotalLines⟩

/-- First hit of an option-valued function over a candidate list (the
backtracking order of the Go regexp engine for a capture group). -/
def firstSome (f : Nat → Option α) : List Nat → Option α
  | [] => none
  | k :: ks =>
    match f k with
    | some x => some x
    | none => firstSome f ks

/-- Candidate lengths for a greedy one-or-more group: w, w-1, ..., 1. -/
def ksDesc (w : Nat) : List Nat := (List.range w).reverse.map (· + 1)

/-- One regexp-sequencing step: one or more digits (maximal), returning
their decimal value. -/
def takeDigits1 (s : Str) : Option (Nat × Str) :=
  let ds := s.takeWhile Char.isDigit
  if ds = [] then none
  else some (ds.foldl (fun a c => a * 10 + (c.toNat - 48)) 0, s.drop ds.length)

/-- The trailing fragment one-or-more-spaces then dot-plus-to-the-end of
both output formats, with the backtracking of the space run: the
message is the remainder after the maximal space run when that is a
non-empty newline-free string, else the last space character when the
remainder is empty and the run is long enough. -/
def msgPart (s : Str) : Option Str :=
  let w := (s.takeWhile isRE2Space).length
  let m := s.drop w
  if w = 0 then none
  else if m = [] then
    if 2 ≤ w then
      match s.drop (w - 1) with
      | [c] => if c = '\n' then none else some [c]
      | _ => none
    else none
  else if m.any (fun c => c = '\n') then none
  else some m

/-- The fragment one-or-more-spaces, non-colon-run, colon of the FAIL
format, with the backtracking of the space run against the greedy
non-colon group. -/
def colonPart (r : Str) : Option (Str × Str) :=
  let w := (r.takeWhile isRE2Space).length
  firstSome (fun k =>
    let t := r.drop k
    let g := t.takeWhile (fun c => c ≠ ':')
    if g = [] then none
    else
      match t.drop g.length with
      | ':' :: rest => some (g, rest)
      | _ => none) (ksDesc w)

/-- The issueFormatRe tail after the first capture group: a colon, the
line number, spaces, the bracketed rule, spaces and the message. -/
def fmt1Rest (s : Str) : Option (Nat × Str × Str) :=
  match s with
  | [] => none
  | c :: rest =>
    if c = ':' then
      (takeDigits1 rest).bind (fun nr =>
        (dropSpaces1 nr.2).bind (fun r2 =>
          (dropLit "[".data r2).bind (fun r3 =>
            let rule := r3.takeWhile (fun x => x ≠ ']')
            if rule = [] then none
            else
              match r3.drop rule.length with
              | ']' :: r4 => (msgPart r4).map (fun m => (nr.1, rule, m))
              | _ => none)))
    else none

/-- Go issueFormatRe FindStringSubmatch: the path group is greedy, so
the longest newline-free prefix whose remainder parses wins. -/
def fmt1Parse (l : Str) : Option (Str × Nat × Str × Str) :=
  let nlLimit := (l.takeWhile (fun c => c ≠ '\n')).length
  firstSome (fun k =>
    (fmt1Rest (l.drop k)).map (fun r => (l.take k, r.1, r.2.1, r.2.2)))
    (ksDesc nlLimit)

/-- The failFormatRe tail after the path group: a colon, the line
number, spaces, a dash, the rule group with its colon, and the message. -/
def fmt2Rest (s : Str) : Option (Nat × Str × Str) :=
  match s with
  | [] => none
  | c :: rest =>
    if c = ':' then
      (takeDigits1 rest).bind (fun nr =>
        (dropSpaces1 nr.2).bind (fun r2 =>
          (dropLit "-".data r2).bind (fun r3 =>
            (colonPart r3).bind (fun gr =>
              (msgPart gr.2).map (fun m => (nr.1, gr.1, m))))))
    else none

/-- The failFormatRe part after the FAIL keyword and one chosen space
run: the greedy path group then the rest of the pattern. -/
def fmt2AfterWS (r : Str) : Option (Str × Nat × Str × Str) :=
  let nlLimit := (r.takeWhile (fun c => c ≠ '\n')).length
  firstSome (fun j =>
    (fmt2Rest (r.drop j)).map (fun t => (r.take j, t.1, t.2.1, t.2.2)))
    (ksDesc nlLimit)

/-- Go failFormatRe FindStringSubmatch: the FAIL keyword, a greedy space
run (backtracked against the path group), then the rest. -/
def fmt2Parse (l : Str) : Option (Str × Nat × Str × Str) :=
  (dropLit "FAIL".data l).bind (fun r =>
    let w := (r.takeWhile isRE2Space).length
    firstSome (fun k => fmt2AfterWS (r.drop k)) (ksDesc w))

/-- Go strconv.Atoi with the error ignored, on a digit-only string: the
value, clamped to the largest 64-bit integer on range overflow. -/
def atoiClamp (v : Nat) : Nat :=
  if v ≤ 9223372036854775807 then v else 9223372036854775807

/-- The zero Issue value returned when neither format matches. -/
def zeroIssue : Issue := ⟨[], 0, [], [], []⟩

/-- parseIssueLine: tries the standard format then the FAIL format,
re-deriving the severity from the parsed rule id. -/
def parseIssueLine (line : Str) : Issue :=
  match fmt1Parse line with
  | some r => ⟨r.1, atoiClamp r.2.1, r.2.2.1, r.2.2.2, getSeverity r.2.2.1⟩
  | none =>
    match fmt2Parse line with
    | some r => ⟨r.1, atoiClamp r.2.1, r.2.2.1, r.2.2.2, getSeverity r.2.2.1⟩
    | none => zeroIssue

/-- One trailing carriage return stripped from a scanned line. -/
def dropCR (l : Str) : Str :=
  if l.getLast? = some '\r' then l.dropLast else l

/-- bufio line scanning: newline split, without the empty token a final
newline would produce, each line stripped of one trailing return. -/
def scanLines (s : Str) : List Str :=
  let parts := splitOnNL s
  let parts := if parts.getLast? = some [] then parts.dropLast else parts
  parts.map dropCR

/-- The per-line step of parseGuardianOutput: the FAIL-or-bracket gate,
then the parse, kept only when it produced a file name. -/
def lineFinding (line : Str) : List Issue :=
  if "FAIL".data.isPrefixOf line || containsSub "[".data line then
    let i := parseIssueLine line
    if i.File ≠ [] then [i] else []
  else []

/-- parseGuardianOutput: scans the output line by line and collects the
parsed issues. -/
def parseGuardianOutput (output : Str) : List Issue :=
  (scanLines output).flatMap lineFinding

/-- The quote parity condition the specification describes for the
eval/exec suppression, stated on the prefix of the line before the
leftmost regexp match: the scan index of the first operator-class
character followed by the eval fragment. -/
def specEvalScanIdx : Nat → Str → Option Nat
  | _, [] => none
  | i, c :: rest =>
    if isOpClass c && evalHere rest then some i else specEvalScanIdx (i + 1) rest

/-- Start index of the leftmost match of the eval regexp in the string,
when one exists. -/
def specEvalStart (s : Str) : Option Nat :=
  if evalHere s then some 0 else specEvalScanIdx 0 s

/-- The suppression condition as the specification words it: both quote
counts of the cleaned substring of the line before the regexp match are
even. -/
def specEvalPrefixParity (line : Str) : Bool :=
  match specEvalStart line with
  | some i => evenQuotes (cleanQuotes (line.take i))
  | none => false

/-- Membership in a guarded singleton. -/
theorem mem_emitIf {i x : Issue} {b : Bool} :
    i ∈ emitIf b x ↔ b = true ∧ i = x := by
  cases b <;> simp [emitIf]

/-- Counting over a guarded singleton whose element fails the predicate. -/
theorem countP_emitIf_zero {f : Issue → Bool} {x : Issue} (b : Bool)
    (h : f x = false) : (emitIf b x).countP f = 0 := by
  cases b <;> simp [emitIf, List.countP_cons, h]

/-- Counting over a guarded singleton whose element meets the predicate. -/
theorem countP_emitIf_one {f : Issue → Bool} {x : Issue} (b : Bool)
    (h : f x = true) : (emitIf b x).countP f = if b then 1 else 0 := by
  cases b <;> simp [emitIf, List.countP_cons, h]

/-- The mock-data finding count of the per-line rule checks. -/
theorem countP_ruleChecks_mock (p : Str) (n : Nat) (line t : Str) :
    (ruleChecks p n line t).countP (fun i => i.Rule == "mock-data".data) =
      if mockAny (toLowerStr line) then 1 else 0 := by
  simp only [ruleChecks, List.countP_append]
  rw [countP_emitIf_one _ rfl, countP_emitIf_zero _ rfl,
    countP_emitIf_zero _ rfl, countP_emitIf_zero _ rfl,
    countP_emitIf_zero _ rfl, countP_emitIf_zero _ rfl,
    countP_emitIf_zero _ rfl, countP_emitIf_zero _ rfl,
    countP_emitIf_zero _ rfl, countP_emitIf_zero _ rfl,
    countP_emitIf_zero _ rfl, countP_emitIf_zero _ rfl]
  omega

/-- The ban-console finding count of the per-line rule checks. -/
theorem countP_ruleChecks_console (p : Str) (n : Nat) (line t : Str) :
    (ruleChecks p n line t).countP (fun i => i.Rule == "ban-console".data) =
      if !("#".data.isPrefixOf t || "//".data.isPrefixOf t) &&
          containsSub "console.log(".data line then 1 else 0 := by
  simp only [ruleChecks, List.countP_append]
  rw [countP_emitIf_zero _ rfl, countP_emitIf_zero _ rfl,
    countP_emitIf_one _ rfl, countP_emitIf_zero _ rfl,
    countP_emitIf_zero _ rfl, countP_emitIf_zero _ rfl,
    countP_emitIf_zero _ rfl, countP_emitIf_zero _ rfl,
    countP_emitIf_zero _ rfl, countP_emitIf_zero _ rfl,
    countP_emitIf_zero _ rfl, countP_emitIf_zero _ rfl]
  omega

/-- The eval-message finding count of the per-line rule checks. -/
theorem countP_ruleChecks_evalMsg (p : Str) (n : Nat) (line t : Str) :
    (ruleChecks p n line t).countP
        (fun i => i.Message == "Avoid eval() - security risk".data) =
      if !("#".data.isPrefixOf t || "//".data.isPrefixOf t) && evalMatch t &&
          evenQuotes (cleanQuotes (beforeFirst "eval".data line)) then 1 else 0 := by
  simp only [ruleChecks, List.countP_append]
  rw [countP_emitIf_zero _ rfl, countP_emitIf_zero _ rfl,
    countP_emitIf_zero _ rfl, countP_emitIf_zero _ rfl,
    countP_emitIf_one _ rfl, countP_emitIf_zero _ rfl,
    countP_emitIf_zero _ rfl, countP_emitIf_zero _ rfl,
    countP_emitIf_zero _ rfl, countP_emitIf_zero _ rfl,
    countP_emitIf_zero _ rfl, countP_emitIf_zero _ rfl]
  omega

/-- The exec-message finding count of the per-line rule checks. -/
theorem countP_ruleChecks_execMsg (p : Str) (n : Nat) (line t : Str) :
    (ruleChecks p n line t).countP
        (fun i => i.Message == "Avoid exec() - security risk".data) =
      if !("#".data.isPrefixOf t || "//".data.isPrefixOf t) && execMatch t &&
          evenQuotes (cleanQuotes (beforeFirst "exec".data line)) then 1 else 0 := by
  simp only [ruleChecks, List.countP_append]
  rw [countP_emitIf_zero _ rfl, countP_emitIf_zero _ rfl,
    countP_emitIf_zero _ rfl, countP_emitIf_zero _ rfl,
    countP_emitIf_zero _ rfl, countP_emitIf_one _ rfl,
    countP_emitIf_zero _ rfl, countP_emitIf_zero _ rfl,
    countP_emitIf_zero _ rfl, countP_emitIf_zero _ rfl,
    countP_emitIf_zero _ rfl, countP_emitIf_zero _ rfl]
  omega

/-- The todo-marker finding count of the per-line rule checks. -/
theorem countP_ruleChecks_todo (p : Str) (n : Nat) (line t : Str) :
    (ruleChecks p n line t).countP (fun i => i.Rule == "todo-marker".data) =
      if containsSub "TODO".data (toUpperStr line) ||
          containsSub "FIXME".data (toUpperStr line) ||
          containsSub "HACK".data (toUpperStr line) then 1 else 0 := by
  simp only [ruleChecks, List.countP_append]
  rw [countP_emitIf_zero _ rfl, countP_emitIf_zero _ rfl,
    countP_emitIf_zero _ rfl, countP_emitIf_zero _ rfl,
    countP_emitIf_zero _ rfl, countP_emitIf_zero _ rfl,
    countP_emitIf_zero _ rfl, countP_emitIf_one _ rfl,
    countP_emitIf_zero _ rfl, countP_emitIf_zero _ rfl,
    countP_emitIf_zero _ rfl, countP_emitIf_zero _ rfl]
  omega

/-- The todo-marker-with-info-severity finding count of the per-line
rule checks. -/
theorem countP_ruleChecks_todoInfo (p : Str) (n : Nat) (line t : Str) :
    (ruleChecks p n line t).countP
        (fun i => i.Rule == "todo-marker".data && i.Severity == "info".data) =
      if containsSub "TODO".data (toUpperStr line) ||
          containsSub "FIXME".data (toUpperStr line) ||
          containsSub "HACK".data (toUpperStr line) then 1 else 0 := by
  simp only [ruleChecks, List.countP_append]
  rw [countP_emitIf_zero _ rfl, countP_emitIf_zero _ rfl,
    countP_emitIf_zero _ rfl, countP_emitIf_zero _ rfl,
    countP_emitIf_zero _ rfl, countP_emitIf_zero _ rfl,
    countP_emitIf_zero _ rfl, countP_emitIf_one _ rfl,
    countP_emitIf_zero _ rfl, countP_emitIf_zero _ rfl,
    countP_emitIf_zero _ rfl, countP_emitIf_zero _ rfl]
  omega

/-- The dangerous-cmd finding count of the per-line rule checks. -/
theorem countP_ruleChecks_dangerous (p : Str) (n : Nat) (line t : Str) :
    (ruleChecks p n line t).countP (fun i => i.Rule == "dangerous-cmd".data) =
      if !("#".data.isPrefixOf t || "//".data.isPrefixOf t) && dangerousAny line
        then 1 else 0 := by
  simp only [ruleChecks, List.countP_append]
  rw [countP_emitIf_zero _ rfl, countP_emitIf_zero _ rfl,
    countP_emitIf_zero _ rfl, countP_emitIf_zero _ rfl,
    countP_emitIf_zero _ rfl, countP_emitIf_zero _ rfl,
    countP_emitIf_zero _ rfl, countP_emitIf_zero _ rfl,
    countP_emitIf_one _ rfl, countP_emitIf_zero _ rfl,
    countP_emitIf_zero _ rfl, countP_emitIf_zero _ rfl]
  omega

/-- The secret-pattern finding count of the per-line rule checks. -/
theorem countP_ruleChecks_secret (p : Str) (n : Nat) (line t : Str) :
    (ruleChecks p n line t).countP (fun i => i.Rule == "secret-pattern".data) =
      if !("#".data.isPrefixOf t || "//".data.isPrefixOf t) && secretAny line
        then 1 else 0 := by
  simp only [ruleChecks, List.countP_append]
  rw [countP_emitIf_zero _ rfl, countP_emitIf_zero _ rfl,
    countP_emitIf_zero _ rfl, countP_emitIf_zero _ rfl,
    countP_emitIf_zero _ rfl, countP_emitIf_zero _ rfl,
    countP_emitIf_zero _ rfl, countP_emitIf_zero _ rfl,
    countP_emitIf_zero _ rfl, countP_emitIf_one _ rfl,
    countP_emitIf_zero _ rfl, countP_emitIf_zero _ rfl]
  omega

/-- For a non-empty line that does not open or continue a docstring,
the line loop body runs exactly the rule checks and keeps the state. -/
theorem processLine_classified (p : Str) (n : Nat) (d : Str) (line : Str)
    (h1 : trimSpace line ≠ [])
    (h2 : ['"', '"', '"'].isPrefixOf (trimSpace line) = false)
    (h3 : ['\'', '\'', '\''].isPrefixOf (trimSpace line) = false) :
    processLine p n ⟨false, d⟩ line =
      (ruleChecks p n line (trimSpace line), ⟨false, d⟩) := by
  simp [processLine, h1, h2, h3]

/-- The issues of one line-loop iteration are empty or exactly the rule
checks of the line. -/
theorem processLine_fst (p : Str) (n : Nat) (st : DocState) (line : Str) :
    (processLine p n st line).1 = [] ∨
    (processLine p n st line).1 = ruleChecks p n line (trimSpace line) := by
  rcases st with ⟨b, dl⟩
  by_cases h0 : trimSpace line = []
  · left
    simp [processLine, h0]
  · cases b
    · by_cases h2 : (['"', '"', '"'].isPrefixOf (trimSpace line) ||
          ['\'', '\'', '\''].isPrefixOf (trimSpace line)) = true
      · left
        simp [processLine, h0, h2, apply_ite Prod.fst]
      · right
        simp [processLine, h0, h2]
    · left
      simp [processLine, h0, apply_ite Prod.fst]

/-- The concrete line refuting claim C1. -/
def cexLineC1 : Str := "x = \"my retrieval\" ; eval(d)".data

/-- C1 counterexample: on this line the eval regexp matches, the line is
not a comment, and both quote counts of the prefix before the regexp
match are even (the parity the specification says triggers a finding),
yet the scanner emits no ban-eval finding: the source computes the
prefix before the first occurrence of the literal text eval, which here
sits inside the identifier retrieval, not before the match. -/
theorem C1_counterexample :
    evalMatch (trimSpace cexLineC1) = true ∧
    ("#".data.isPrefixOf (trimSpace cexLineC1) ||
      "//".data.isPrefixOf (trimSpace cexLineC1)) = false ∧
    specEvalPrefixParity cexLineC1 = true ∧
    (checkFile "t.py".data cexLineC1).countP
      (fun i => i.Rule == "ban-eval".data) = 0 := by
  decide

/-- C1 (amended): for a classified non-comment line, a ban-eval finding
for an eval call is emitted exactly when the eval regexp matches the
trimmed line and both quote counts are even in the cleaned prefix of
the line before the first occurrence of the literal text eval (not
before the regexp match); symmetrically for exec. -/
theorem C1_eval_quote_parity (p : Str) (n : Nat) (d : Str) (line : Str)
    (h1 : trimSpace line ≠ [])
    (h2 : ['"', '"', '"'].isPrefixOf (trimSpace line) = false)
    (h3 : ['\'', '\'', '\''].isPrefixOf (trimSpace line) = false)
    (h4 : ("#".data.isPrefixOf (trimSpace line) ||
      "//".data.isPrefixOf (trimSpace line)) = false) :
    ((processLine p n ⟨false, d⟩ line).1.countP
        (fun i => i.Message == "Avoid eval() - security risk".data) =
      if evalMatch (trimSpace line) &&
          evenQuotes (cleanQuotes (beforeFirst "eval".data line)) then 1 else 0) ∧
    ((processLine p n ⟨false, d⟩ line).1.countP
        (fun i => i.Message == "Avoid exec() - security risk".data) =
      if execMatch (trimSpace line) &&
          evenQuotes (cleanQuotes (beforeFirst "exec".data line)) then 1 else 0) := by
  rw [processLine_classified p n d line h1 h2 h3]
  constructor
  · rw [countP_ruleChecks_evalMsg, h4]
    simp
  · rw [countP_ruleChecks_execMsg, h4]
    simp

/-- C1 witness: the amended statement applied to a genuine eval call. -/
theorem C1_eval_quote_parity_witness :
    (processLine "t.py".data 1 ⟨false, []⟩ "result = eval(\"1+1\")".data).1.countP
      (fun i => i.Message == "Avoid eval() - security risk".data) = 1 := by
  have h := (C1_eval_quote_parity "t.py".data 1 [] "result = eval(\"1+1\")".data
    (by decide) (by decide) (by decide) (by decide)).1
  rw [h]
  decide

/-- C3 counterexample: a line inside a multi-line docstring that matches
a mock pattern and carries a TODO marker produces no finding at all,
although the claim says mock-data and TODO matching ignores docstring
context. -/
theorem C3_counterexample :
    mockAny (toLowerStr "placeholder TODO".data) = true ∧
    containsSub "TODO".data (toUpperStr "placeholder TODO".data) = true ∧
    checkFile "t.py".data "'''\nplaceholder TODO\n'''".data = [] := by
  decide

/-- C3 (amended): for a classified line (outside any multi-line
docstring and not a docstring delimiter line), the mock-data rule on
the lower-cased line and the TODO-marker rule fire regardless of
comment or single-line string context: the finding counts depend only
on the raw-line matches, with no comment condition; lines inside
docstrings are instead skipped entirely. -/
theorem C3_mock_todo_bypass (p : Str) (n : Nat) (d : Str) (line : Str)
    (h1 : trimSpace line ≠ [])
    (h2 : ['"', '"', '"'].isPrefixOf (trimSpace line) = false)
    (h3 : ['\'', '\'', '\''].isPrefixOf (trimSpace line) = false) :
    ((processLine p n ⟨false, d⟩ line).1.countP
        (fun i => i.Rule == "mock-data".data) =
      if mockAny (toLowerStr line) then 1 else 0) ∧
    ((processLine p n ⟨false, d⟩ line).1.countP
        (fun i => i.Rule == "todo-marker".data) =
      if containsSub "TODO".data (toUpperStr line) ||
          containsSub "FIXME".data (toUpperStr line) ||
          containsSub "HACK".data (toUpperStr line) then 1 else 0) := by
  rw [processLine_classified p n d line h1 h2 h3]
  exact ⟨countP_ruleChecks_mock p n line (trimSpace line),
    countP_ruleChecks_todo p n line (trimSpace line)⟩

/-- C3 witness: a comment line with a mock pattern and a TODO marker
still yields both findings. -/
theorem C3_mock_todo_bypass_witness :
    ((processLine "t.py".data 1 ⟨false, []⟩ "# placeholder TODO".data).1.countP
        (fun i => i.Rule == "mock-data".data) = 1) ∧
    ((processLine "t.py".data 1 ⟨false, []⟩ "# placeholder TODO".data).1.countP
        (fun i => i.Rule == "todo-marker".data) = 1) := by
  have h := C3_mock_todo_bypass "t.py".data 1 [] "# placeholder TODO".data
    (by decide) (by decide) (by decide)
  refine ⟨?_, ?_⟩
  · rw [h.1]
    decide
  · rw [h.2]
    decide

/-- C7 counterexample: a line containing only the XXX marker yields no
finding: the source checks the markers TODO, FIXME and HACK but not
XXX, although the claim lists XXX. -/
theorem C7_counterexample :
    containsSub "XXX".data (toUpperStr "# XXX remove".data) = true ∧
    checkFile "t.py".data "# XXX remove".data = [] := by
  decide

/-- C7 (amended): for every classified line containing any of the
markers TODO, FIXME or HACK (not XXX), matched case-insensitively and
anywhere on the line including inside comments, a todo-marker finding
with severity info is emitted. -/
theorem C7_todo_markers (p : Str) (n : Nat) (d : Str) (line : Str)
    (h1 : trimSpace line ≠ [])
    (h2 : ['"', '"', '"'].isPrefixOf (trimSpace line) = false)
    (h3 : ['\'', '\'', '\''].isPrefixOf (trimSpace line) = false)
    (hm : (containsSub "TODO".data (toUpperStr line) ||
      containsSub "FIXME".data (toUpperStr line) ||
      containsSub "HACK".data (toUpperStr line)) = true) :
    (processLine p n ⟨false, d⟩ line).1.countP
      (fun i => i.Rule == "todo-marker".data && i.Severity == "info".data) = 1 := by
  rw [processLine_classified p n d line h1 h2 h3]
  rw [countP_ruleChecks_todoInfo]
  simp [hm]

/-- C7 witness: the amended statement applied to a TODO comment line. -/
theorem C7_todo_markers_witness :
    (processLine "t.py".data 1 ⟨false, []⟩ "# TODO: fix this later".data).1.countP
      (fun i => i.Rule == "todo-marker".data && i.Severity == "info".data) = 1 :=
  C7_todo_markers "t.py".data 1 [] "# TODO: fix this later".data
    (by decide) (by decide) (by decide) (by decide)

/-- C8 counterexample: a Python file passes the extension filter of the
walkers, and scanning it with a console.log line yields a ban-console
finding, although the claim says the rule fires only for non-Python
files. -/
theorem C8_counterexample :
    extSupported "a.py".data = true ∧
    checkFile "a.py".data "x = console.log(1)".data =
      [⟨"a.py".data, 1, "ban-console".data,
        "Remove console.log() - use proper logging".data, "info".data⟩] := by
  decide

/-- C8 (amended): the ban-console rule fires on a console.log( call
outside comments for every scanned file regardless of its extension,
Python included: for a classified line the ban-console finding count
is one exactly when the line is not a comment and contains
console.log(, with the file path arbitrary. -/
theorem C8_console_any_file (p : Str) (n : Nat) (d : Str) (line : Str)
    (h1 : trimSpace line ≠ [])
    (h2 : ['"', '"', '"'].isPrefixOf (trimSpace line) = false)
    (h3 : ['\'', '\'', '\''].isPrefixOf (trimSpace line) = false) :
    (processLine p n ⟨false, d⟩ line).1.countP
        (fun i => i.Rule == "ban-console".data) =
      if !("#".data.isPrefixOf (trimSpace line) ||
          "//".data.isPrefixOf (trimSpace line)) &&
          containsSub "console.log(".data line then 1 else 0 := by
  rw [processLine_classified p n d line h1 h2 h3]
  exact countP_ruleChecks_console p n line (trimSpace line)

/-- C8 witness: the amended statement applied to a console.log line in
a Python file path. -/
theorem C8_console_any_file_witness :
    (processLine "p/a.py".data 1 ⟨false, []⟩ "x = console.log(1)".data).1.countP
      (fun i => i.Rule == "ban-console".data) = 1 := by
  have h := C8_console_any_file "p/a.py".data 1 [] "x = console.log(1)".data
    (by decide) (by decide) (by decide)
  rw [h]
  decide

/-- C9: each of the list-driven rules mock-data, dangerous-cmd and
secret-pattern emits at most one finding per line, even when several of
the patterns of that rule match the same line: the loops break at the
first matching pattern. -/
theorem C9_list_rules_at_most_one (p : Str) (n : Nat) (st : DocState) (line : Str) :
    (processLine p n st line).1.countP (fun i => i.Rule == "mock-data".data) ≤ 1 ∧
    (processLine p n st line).1.countP (fun i => i.Rule == "dangerous-cmd".data) ≤ 1 ∧
    (processLine p n st line).1.countP (fun i => i.Rule == "secret-pattern".data) ≤ 1 := by
  rcases processLine_fst p n st line with h | h <;> rw [h]
  · simp
  · refine ⟨?_, ?_, ?_⟩
    · rw [countP_ruleChecks_mock]
      split <;> omega
    · rw [countP_ruleChecks_dangerous]
      split <;> omega
    · rw [countP_ruleChecks_secret]
      split <;> omega

/-- The builtin walk distributes over directory-listing concatenation. -/
theorem walkList_append (pfx : Str) (a b : List FSEntry) :
    walkList pfx (a ++ b) = walkList pfx a ++ walkList pfx b := by
  induction a with
  | nil => simp [walkList]
  | cons e es ih => simp [walkList, ih]

/-- Associativity of dry run accumulator concatenation. -/
theorem DryAcc.append_assoc (x y z : DryAcc) :
    (x.append y).append z = x.append (y.append z) := by
  simp [DryAcc.append, Nat.add_assoc]

/-- The dry run walk distributes over directory-listing concatenation. -/
theorem dryWalkList_append (rel : Str) (a b : List FSEntry) :
    dryWalkList rel (a ++ b) =
      (dryWalkList rel a).append (dryWalkList rel b) := by
  induction a with
  | nil => simp [dryWalkList, DryAcc.append]
  | cons e es ih => simp [dryWalkList, ih, DryAcc.append_assoc]

/-- C2: a directory whose base name is excluded prunes its whole
subtree: the builtin walk reports no finding for it and the dry run
records no file or line for it, whatever its children; consequently
dropping an excluded directory anywhere in a listing changes neither
the findings of the scan nor the dry-run files and counts. -/
theorem C2_excluded_subtree_pruned :
    (∀ (pfx name : Str) (children : List FSEntry), excludedDirs name = true →
      walkEntry pfx (.dir name children) = []) ∧
    (∀ (rel name : Str) (children : List FSEntry), excludedDirs name = true →
      dryWalkEntry rel (.dir name children) = ⟨[], [name ++ ['/']], 0, 0⟩) ∧
    (∀ (pfx dname : Str) (cs1 cs2 : List FSEntry) (ename : Str)
        (ech : List FSEntry), excludedDirs ename = true →
      walkEntry pfx (.dir dname (cs1 ++ .dir ename ech :: cs2)) =
        walkEntry pfx (.dir dname (cs1 ++ cs2))) ∧
    (∀ (rel dname : Str) (cs1 cs2 : List FSEntry) (ename : Str)
        (ech : List FSEntry), excludedDirs ename = true →
      (dryWalkEntry rel (.dir dname (cs1 ++ .dir ename ech :: cs2))).Files =
        (dryWalkEntry rel (.dir dname (cs1 ++ cs2))).Files ∧
      (dryWalkEntry rel (.dir dname (cs1 ++ .dir ename ech :: cs2))).FileCount =
        (dryWalkEntry rel (.dir dname (cs1 ++ cs2))).FileCount ∧
      (dryWalkEntry rel (.dir dname (cs1 ++ .dir ename ech :: cs2))).TotalLines =
        (dryWalkEntry rel (.dir dname (cs1 ++ cs2))).TotalLines) := by
  have hw : ∀ (pfx name : Str) (children : List FSEntry),
      excludedDirs name = true → walkEntry pfx (.dir name children) = [] := by
    intro pfx name children h
    simp [walkEntry, h]
  have hd : ∀ (rel name : Str) (children : List FSEntry),
      excludedDirs name = true →
      dryWalkEntry rel (.dir name children) = ⟨[], [name ++ ['/']], 0, 0⟩ := by
    intro rel name children h
    simp [dryWalkEntry, h]
  refine ⟨hw, hd, ?_, ?_⟩
  · intro pfx dname cs1 cs2 ename ech h
    by_cases hx : excludedDirs dname = true
    · simp [walkEntry, hx]
    · simp only [walkEntry, hx, if_false, Bool.false_eq_true]
      rw [walkList_append, walkList_append]
      have : walkList (joinP pfx dname) (FSEntry.dir ename ech :: cs2) =
          walkList (joinP pfx dname) cs2 := by
        simp [walkList, hw _ _ _ h]
      rw [this]
  · intro rel dname cs1 cs2 ename ech h
    by_cases hx : excludedDirs dname = true
    · simp [dryWalkEntry, hx]
    · simp only [dryWalkEntry, hx, if_false, Bool.false_eq_true]
      rw [dryWalkList_append, dryWalkList_append]
      have hmid : dryWalkList (joinP rel dname) (FSEntry.dir ename ech :: cs2) =
          (⟨[], [ename ++ ['/']], 0, 0⟩ : DryAcc).append
            (dryWalkList (joinP rel dname) cs2) := by
        simp [dryWalkList, hd _ _ _ h]
      rw [hmid]
      simp [DryAcc.append]

/-- C2 witness: a dangerous file inside an excluded directory yields
no finding and no dry-run file or line count. -/
theorem C2_excluded_subtree_pruned_witness :
    walkEntry [] (.dir ".git".data
      [.file "hooks.py".data "eval(\"bad\")".data]) = [] ∧
    dryWalkEntry [] (.dir ".git".data
      [.file "hooks.py".data "eval(\"bad\")".data]) =
      ⟨[], [".git/".data], 0, 0⟩ :=
  ⟨C2_excluded_subtree_pruned.1 [] ".git".data
      [.file "hooks.py".data "eval(\"bad\")".data] (by decide),
   C2_excluded_subtree_pruned.2.1 [] ".git".data
      [.file "hooks.py".data "eval(\"bad\")".data] (by decide)⟩

/-- Concatenation of content lines, each terminated by a newline: a file
of that shape ends with a newline and has exactly one content line per
list element. -/
def joinNL : List Str → Str
  | [] => []
  | l :: ls => l ++ '\n' :: joinNL ls

/-- Newline splitting after a newline-free line and its terminator. -/
theorem splitOnNL_cons_line (l : Str) (hl : '\n' ∉ l) (t : Str) :
    splitOnNL (l ++ '\n' :: t) = l :: splitOnNL t := by
  induction l with
  | nil => simp [splitOnNL]
  | cons c cs ih =>
    have hc : c ≠ '\n' := fun h => hl (h ▸ List.mem_cons_self c cs)
    have hcs : '\n' ∉ cs := fun h => hl (List.mem_cons_of_mem c h)
    rw [List.cons_append]
    rw [splitOnNL, if_neg hc, ih hcs]

/-- Newline splitting of a newline-terminated line list: the content
lines followed by the phantom empty element. -/
theorem splitOnNL_joinNL (ls : List Str) (h : ∀ l ∈ ls, '\n' ∉ l) :
    splitOnNL (joinNL ls) = ls ++ [[]] := by
  induction ls with
  | nil => simp [joinNL, splitOnNL]
  | cons l ls ih =>
    rw [joinNL, splitOnNL_cons_line l (h l (List.mem_cons_self l ls)),
      ih (fun x hx => h x (List.mem_cons_of_mem l hx))]
    rfl

/-- The file-size finding count of the per-line rule checks is zero:
the line loop never emits the file-size rule. -/
theorem countP_ruleChecks_filesize (p : Str) (n : Nat) (line t : Str) :
    (ruleChecks p n line t).countP (fun i => i.Rule == "file-size".data) = 0 := by
  simp only [ruleChecks, List.countP_append]
  rw [countP_emitIf_zero _ rfl, countP_emitIf_zero _ rfl,
    countP_emitIf_zero _ rfl, countP_emitIf_zero _ rfl,
    countP_emitIf_zero _ rfl, countP_emitIf_zero _ rfl,
    countP_emitIf_zero _ rfl, countP_emitIf_zero _ rfl,
    countP_emitIf_zero _ rfl, countP_emitIf_zero _ rfl,
    countP_emitIf_zero _ rfl, countP_emitIf_zero _ rfl]

/-- The whole line loop never emits the file-size rule. -/
theorem countP_processLines_filesize (p : Str) (ls : List Str) :
    ∀ (n : Nat) (st : DocState),
    (processLines p n st ls).countP (fun i => i.Rule == "file-size".data) = 0 := by
  induction ls with
  | nil => intro n st; simp [processLines]
  | cons l rest ih =>
    intro n st
    rw [processLines, List.countP_append, ih]
    rcases processLine_fst p n st l with h | h <;> rw [h]
    · simp
    · rw [countP_ruleChecks_filesize]

/-- C4: the scanner corrects the trailing-newline artifact (a file of
newline-terminated content lines counts exactly those lines); a file of
at most five hundred counted lines yields no file-size finding; a file
of more than five hundred yields exactly one, and it reports line one. -/
theorem C4_file_size_boundary :
    (∀ ls : List Str, (∀ l ∈ ls, '\n' ∉ l) →
      lineCountOf (joinNL ls) = ls.length) ∧
    (∀ path content : Str, lineCountOf content ≤ 500 →
      (checkFile path content).countP
        (fun i => i.Rule == "file-size".data) = 0) ∧
    (∀ path content : Str, 500 < lineCountOf content →
      (checkFile path content).filter
        (fun i => i.Rule == "file-size".data) =
        [⟨path, 1, "file-size".data,
          "File has ".data ++ Nat.toDigits 10 (lineCountOf content) ++
            " lines (max 500)".data, "warning".data⟩]) := by
  refine ⟨?_, ?_, ?_⟩
  · intro ls h
    rw [lineCountOf, splitOnNL_joinNL ls h]
    simp
  · intro path content h
    have hb : decide (lineCountOf content > 500) = false :=
      decide_eq_false (by omega)
    rw [checkFile, List.countP_append, countP_processLines_filesize]
    rw [hb]
    simp [emitIf]
  · intro path content h
    have hb : decide (lineCountOf content > 500) = true :=
      decide_eq_true (by omega)
    have hnil : (processLines path 1 ⟨false, []⟩ (splitOnNL content)).filter
        (fun i => i.Rule == "file-size".data) = [] := by
      rw [List.filter_eq_nil_iff]
      intro a ha
      have h0 := countP_processLines_filesize path (splitOnNL content) 1 ⟨false, []⟩
      rw [List.countP_eq_zero] at h0
      exact fun hc => h0 a ha hc
    rw [checkFile, List.filter_append, hnil, hb]
    simp [emitIf]

/-- C4 witness: a two-line newline-terminated file counts two lines and
gets no file-size finding; a 501-line file gets exactly the line-one
file-size finding. -/
theorem C4_file_size_boundary_witness :
    lineCountOf (joinNL ["x=1".data, "y=2".data]) = 2 ∧
    (checkFile "a.py".data "x=1\ny=2\n".data).countP
      (fun i => i.Rule == "file-size".data) = 0 ∧
    (checkFile "a.py".data (joinNL (List.replicate 501 ['x']))).filter
      (fun i => i.Rule == "file-size".data) =
      [⟨"a.py".data, 1, "file-size".data,
        "File has ".data ++ Nat.toDigits 10
          (lineCountOf (joinNL (List.replicate 501 ['x']))) ++
          " lines (max 500)".data, "warning".data⟩] := by
  have h1 := C4_file_size_boundary.1 ["x=1".data, "y=2".data] (by decide)
  have hrep : ∀ l ∈ List.replicate 501 ['x'], '\n' ∉ l := by
    intro l hl
    rw [List.eq_of_mem_replicate hl]
    decide
  have h501 : lineCountOf (joinNL (List.replicate 501 ['x'])) = 501 := by
    rw [C4_file_size_boundary.1 (List.replicate 501 ['x']) hrep]
    exact List.length_replicate 501 ['x']
  refine ⟨h1, ?_, ?_⟩
  · exact C4_file_size_boundary.2.1 "a.py".data "x=1\ny=2\n".data (by decide)
  · exact C4_file_size_boundary.2.2 "a.py".data (joinNL (List.replicate 501 ['x']))
      (by rw [h501]; omega)

/-- Every issue of the per-line rule checks carries the severity the
fixed table assigns to its rule. -/
theorem severity_ruleChecks (p : Str) (n : Nat) (line t : Str) (i : Issue)
    (hi : i ∈ ruleChecks p n line t) : i.Severity = getSeverity i.Rule := by
  simp only [ruleChecks, List.mem_append, mem_emitIf, or_assoc] at hi
  rcases hi with ⟨_, rfl⟩ | ⟨_, rfl⟩ | ⟨_, rfl⟩ | ⟨_, rfl⟩ | ⟨_, rfl⟩ | ⟨_, rfl⟩ |
    ⟨_, rfl⟩ | ⟨_, rfl⟩ | ⟨_, rfl⟩ | ⟨_, rfl⟩ | ⟨_, rfl⟩ | ⟨_, rfl⟩ <;> rfl

/-- Every issue of the whole line loop carries the severity of the
fixed table. -/
theorem severity_processLines (p : Str) (ls : List Str) :
    ∀ (n : Nat) (st : DocState) (i : Issue), i ∈ processLines p n st ls →
      i.Severity = getSeverity i.Rule := by
  induction ls with
  | nil =>
    intro n st i hi
    simp [processLines] at hi
  | cons l rest ih =>
    intro n st i hi
    rw [processLines, List.mem_append] at hi
    rcases hi with hi | hi
    · rcases processLine_fst p n st l with h | h
      · rw [h] at hi
        simp at hi
      · rw [h] at hi
        exact severity_ruleChecks p n l (trimSpace l) i hi
    · exact ih (n + 1) (processLine p n st l).2 i hi

/-- C6: severity is a total deterministic function of the rule id with
the fixed table (the four critical rules, the three info rules, all
other ids warning), and every finding of the built-in file scan carries
exactly the severity getSeverity assigns to its rule id. -/
theorem C6_severity_total_and_consistent :
    (∀ r : Str, getSeverity r = "critical".data ∨ getSeverity r = "warning".data ∨
      getSeverity r = "info".data) ∧
    (getSeverity "ban-eval".data = "critical".data ∧
      getSeverity "dangerous-cmd".data = "critical".data ∧
      getSeverity "secret-pattern".data = "critical".data ∧
      getSeverity "sql-injection".data = "critical".data ∧
      getSeverity "ban-print".data = "info".data ∧
      getSeverity "ban-console".data = "info".data ∧
      getSeverity "todo-marker".data = "info".data) ∧
    (∀ r : Str, r ≠ "ban-eval".data → r ≠ "dangerous-cmd".data →
      r ≠ "secret-pattern".data → r ≠ "sql-injection".data →
      r ≠ "ban-print".data → r ≠ "ban-console".data → r ≠ "todo-marker".data →
      getSeverity r = "warning".data) ∧
    (∀ (path content : Str) (i : Issue), i ∈ checkFile path content →
      i.Severity = getSeverity i.Rule) := by
  refine ⟨?_, by decide, ?_, ?_⟩
  · intro r
    unfold getSeverity
    split
    · exact Or.inl rfl
    · split
      · exact Or.inr (Or.inr rfl)
      · exact Or.inr (Or.inl rfl)
  · intro r h1 h2 h3 h4 h5 h6 h7
    unfold getSeverity
    rw [if_neg, if_neg]
    · simp [h5, h6, h7]
    · simp [h1, h2, h3, h4]
  · intro path content i hi
    rw [checkFile, List.mem_append] at hi
    rcases hi with hi | hi
    · rw [mem_emitIf] at hi
      rw [hi.2]
      rfl
    · exact severity_processLines path (splitOnNL content) 1 ⟨false, []⟩ i hi

/-- C6 witness: a concrete critical finding of the scan carries the
severity of its rule id, and an unknown rule id maps to warning. -/
theorem C6_severity_witness :
    ((⟨"a.py".data, 1, "ban-eval".data, "Avoid eval() - security risk".data,
        "critical".data⟩ : Issue).Severity =
      getSeverity "ban-eval".data) ∧
    getSeverity "no-such-rule".data = "warning".data := by
  refine ⟨?_, ?_⟩
  · exact C6_severity_total_and_consistent.2.2.2 "a.py".data "x = eval(y)".data
      ⟨"a.py".data, 1, "ban-eval".data, "Avoid eval() - security risk".data,
        "critical".data⟩ (by decide)
  · exact C6_severity_total_and_consistent.2.2.1 "no-such-rule".data
      (by decide) (by decide) (by decide) (by decide) (by decide) (by decide)
      (by decide)

/-- C10: the per-file line count the dry run records is computed exactly
as the line count the file scanner uses for its file-size check, and
the dry run walk records that count for every supported file. -/
theorem C10_dry_run_count_consistent :
    (∀ content : Str, dryLineCountOf content = lineCountOf content) ∧
    (∀ rel name content : Str,
      dryWalkEntry rel (.file name content) =
        if extSupported (joinP rel name) then
          ⟨[⟨joinP rel name, lineCountOf content⟩], [], 1, lineCountOf content⟩
        else ⟨[], [], 0, 0⟩) := by
  refine ⟨fun _ => rfl, ?_⟩
  intro rel name content
  rw [dryWalkEntry]
  rfl

/-- A successful first hit comes from some candidate in the list. -/
theorem firstSome_eq_some {α : Type} {f : Nat → Option α} {ks : List Nat}
    {x : α} (h : firstSome f ks = some x) : ∃ k ∈ ks, f k = some x := by
  induction ks with
  | nil => simp [firstSome] at h
  | cons k ks ih =>
    rw [firstSome] at h
    cases hk : f k with
    | some y =>
      rw [hk] at h
      exact ⟨k, List.mem_cons_self k ks, hk.trans h⟩
    | none =>
      rw [hk] at h
      obtain ⟨j, hj, hfj⟩ := ih h
      exact ⟨j, List.mem_cons_of_mem k hj, hfj⟩

/-- Candidate lengths of a greedy group are positive and bounded. -/
theorem mem_ksDesc {k w : Nat} (h : k ∈ ksDesc w) : 1 ≤ k ∧ k ≤ w := by
  simp only [ksDesc, List.mem_map, List.mem_reverse, List.mem_range] at h
  obtain ⟨j, hj, rfl⟩ := h
  omega

/-- The remainder of the digit step is a suffix of the input. -/
theorem takeDigits1_suffix {s : Str} {v : Nat} {r : Str}
    (h : takeDigits1 s = some (v, r)) : r <:+ s := by
  rw [takeDigits1] at h
  by_cases hd : s.takeWhile Char.isDigit = []
  · rw [if_pos hd] at h
    exact absurd h (by simp)
  · rw [if_neg hd] at h
    obtain ⟨-, hr⟩ := Prod.mk.injEq .. ▸ Option.some.injEq .. ▸ h
    exact hr ▸ List.drop_suffix _ s

/-- The remainder of the mandatory-space step is a suffix of the input. -/
theorem dropSpaces1_suffix {s r : Str} (h : dropSpaces1 s = some r) :
    r <:+ s := by
  cases s with
  | nil => simp [dropSpaces1] at h
  | cons c rest =>
    rw [dropSpaces1] at h
    by_cases hc : isRE2Space c = true
    · rw [if_pos hc] at h
      obtain rfl := Option.some.injEq .. ▸ h
      exact (List.dropWhile_suffix _).trans (List.suffix_cons c rest)
    · rw [if_neg hc] at h
      exact absurd h (by simp)

/-- A successful literal step splits the input after the literal. -/
theorem dropLit_eq {lit s r : Str} (h : dropLit lit s = some r) :
    s = lit ++ r := by
  rw [dropLit] at h
  by_cases hp : lit.isPrefixOf s = true
  · rw [if_pos hp] at h
    obtain ⟨t, rfl⟩ := List.isPrefixOf_iff_prefix.mp hp
    obtain rfl := Option.some.injEq .. ▸ h
    rw [List.drop_left]
  · rw [if_neg hp] at h
    exact absurd h (by simp)

/-- A successful standard-format tail parse means the input holds an
opening bracket. -/
theorem fmt1Rest_bracket {s : Str} {x : Nat × Str × Str}
    (h : fmt1Rest s = some x) : '[' ∈ s := by
  cases s with
  | nil => simp [fmt1Rest] at h
  | cons c rest =>
    rw [fmt1Rest] at h
    by_cases hc : c = ':'
    · rw [if_pos hc] at h
      cases htd : takeDigits1 rest with
      | none => rw [htd] at h; simp at h
      | some nr =>
        rw [htd] at h
        simp only [Option.bind_eq_bind, Option.some_bind] at h
        cases hds : dropSpaces1 nr.2 with
        | none => rw [hds] at h; simp at h
        | some r2 =>
          rw [hds] at h
          simp only [Option.some_bind] at h
          cases hdl : dropLit "[".data r2 with
          | none => rw [hdl] at h; simp at h
          | some r3 =>
            have hr2 : r2 = '[' :: r3 := dropLit_eq hdl
            have h1 : ('[' : Char) ∈ r2 := by
              rw [hr2]
              exact List.mem_cons_self '[' r3
            have h2 : ('[' : Char) ∈ nr.2 := (dropSpaces1_suffix hds).subset h1
            have h3 : ('[' : Char) ∈ rest :=
              (takeDigits1_suffix (htd.trans (congrArg some (Prod.mk.eta).symm))).subset h2
            exact List.mem_cons_of_mem c h3
    · rw [if_neg hc] at h
      exact absurd h (by simp)

/-- A successful standard-format parse means the line holds an opening
bracket and the parsed path is non-empty. -/
theorem fmt1Parse_props {l f : Str} {n : Nat} {r m : Str}
    (h : fmt1Parse l = some (f, n, r, m)) : '[' ∈ l ∧ f ≠ [] := by
  rw [fmt1Parse] at h
  obtain ⟨k, hk, hfk⟩ := firstSome_eq_some h
  cases hr : fmt1Rest (l.drop k) with
  | none => rw [hr] at hfk; simp at hfk
  | some y =>
    rw [hr] at hfk
    simp only [Option.map_some', Option.some.injEq] at hfk
    obtain ⟨hf, -⟩ := Prod.mk.injEq .. ▸ hfk
    have hbr : '[' ∈ l := List.drop_subset k l (fmt1Rest_bracket hr)
    obtain ⟨hk1, hk2⟩ := mem_ksDesc hk
    have hlen : (l.takeWhile (fun c => c ≠ '\n')).length ≤ l.length :=
      (List.takeWhile_sublist _).length_le
    refine ⟨hbr, ?_⟩
    rw [← hf]
    intro hnil
    rcases List.take_eq_nil_iff.mp hnil with h0 | h0
    · omega
    · subst h0
      simp only [List.takeWhile_nil, List.length_nil] at hk2
      omega

/-- A successful FAIL-format suffix parse has a non-empty path group. -/
theorem fmt2AfterWS_fst {s f : Str} {n : Nat} {r m : Str}
    (h : fmt2AfterWS s = some (f, n, r, m)) : f ≠ [] := by
  rw [fmt2AfterWS] at h
  obtain ⟨j, hj, hfj⟩ := firstSome_eq_some h
  cases hr : fmt2Rest (s.drop j) with
  | none => rw [hr] at hfj; simp at hfj
  | some y =>
    rw [hr] at hfj
    simp only [Option.map_some', Option.some.injEq] at hfj
    obtain ⟨hf, -⟩ := Prod.mk.injEq .. ▸ hfj
    obtain ⟨hj1, hj2⟩ := mem_ksDesc hj
    have hlen : (s.takeWhile (fun c => c ≠ '\n')).length ≤ s.length :=
      (List.takeWhile_sublist _).length_le
    rw [← hf]
    intro hnil
    rcases List.take_eq_nil_iff.mp hnil with h0 | h0
    · omega
    · subst h0
      simp only [List.takeWhile_nil, List.length_nil] at hj2
      omega

/-- A successful FAIL-format parse means the line starts with FAIL and
the parsed path is non-empty. -/
theorem fmt2Parse_props {l f : Str} {n : Nat} {r m : Str}
    (h : fmt2Parse l = some (f, n, r, m)) :
    "FAIL".data.isPrefixOf l = true ∧ f ≠ [] := by
  rw [fmt2Parse] at h
  cases hdl : dropLit "FAIL".data l with
  | none => rw [hdl] at h; simp at h
  | some r0 =>
    rw [hdl] at h
    simp only [Option.some_bind] at h
    obtain ⟨k, hk, hfk⟩ := firstSome_eq_some h
    refine ⟨?_, fmt2AfterWS_fst hfk⟩
    have := dropLit_eq hdl
    rw [List.isPrefixOf_iff_prefix, this]
    exact ⟨r0, rfl⟩

/-- A character membership gives a one-character substring hit. -/
theorem containsSub_of_mem {c : Char} {hay : Str} (h : c ∈ hay) :
    containsSub [c] hay = true := by
  induction hay with
  | nil => simp at h
  | cons a rest ih =>
    rw [containsSub, existsSuffix]
    rcases List.mem_cons.mp h with rfl | h
    · have : [c].isPrefixOf (c :: rest) = true := by
        simp [List.isPrefixOf]
      rw [this, Bool.true_or]
    · rw [← containsSub, ih h, Bool.or_true]

/-- C5: the external-output parser turns every line in the standard
format or the FAIL format into exactly one finding with the parsed
file, line, rule and message and the severity re-derived from the rule
id; every line matching neither format yields no finding; the whole
output is the concatenation of the per-line results, so a malformed
line never aborts the parse; and the round-trip example produces the
critical ban-eval finding. -/
theorem C5_output_format_parsing :
    (∀ (l f : Str) (n : Nat) (r m : Str), fmt1Parse l = some (f, n, r, m) →
      lineFinding l = [⟨f, atoiClamp n, r, m, getSeverity r⟩]) ∧
    (∀ (l f : Str) (n : Nat) (r m : Str), fmt1Parse l = none →
      fmt2Parse l = some (f, n, r, m) →
      lineFinding l = [⟨f, atoiClamp n, r, m, getSeverity r⟩]) ∧
    (∀ l : Str, fmt1Parse l = none → fmt2Parse l = none → lineFinding l = []) ∧
    (∀ output : Str, parseGuardianOutput output =
      (scanLines output).flatMap lineFinding) ∧
    (parseGuardianOutput
        "main.py:10 [ban-eval] Avoid eval() - security risk".data =
      [⟨"main.py".data, 10, "ban-eval".data,
        "Avoid eval() - security risk".data, "critical".data⟩]) := by
  refine ⟨?_, ?_, ?_, fun _ => rfl, by decide⟩
  · intro l f n r m h
    obtain ⟨hbr, hf⟩ := fmt1Parse_props h
    have hc : containsSub "[".data l = true := containsSub_of_mem hbr
    simp only [lineFinding, parseIssueLine, h, hc, Bool.or_true, if_true]
    simp [hf]
  · intro l f n r m h1 h2
    obtain ⟨hp, hf⟩ := fmt2Parse_props h2
    simp only [lineFinding, parseIssueLine, h1, h2, hp, Bool.true_or, if_true]
    simp [hf]
  · intro l h1 h2
    simp only [lineFinding, parseIssueLine, h1, h2]
    simp [zeroIssue]

/-- C5 witness: both formats applied to the round-trip example line. -/
theorem C5_output_format_parsing_witness :
    lineFinding "main.py:10 [ban-eval] Avoid eval() - security risk".data =
      [⟨"main.py".data, 10, "ban-eval".data,
        "Avoid eval() - security risk".data, "critical".data⟩] ∧
    lineFinding
        "FAIL main.py:10 - ban-eval: Avoid eval() - security risk".data =
      [⟨"main.py".data, 10, "ban-eval".data,
        "Avoid eval() - security risk".data, "critical".data⟩] := by
  constructor
  · exact C5_output_format_parsing.1 _ "main.py".data 10 "ban-eval".data
      "Avoid eval() - security risk".data (by decide)
  · exact C5_output_format_parsing.2.1 _ "main.py".data 10 "ban-eval".data
      "Avoid eval() - security risk".data (by decide) (by decide)

end Guardian
